import Mathlib

/-
Verification of the cross-thread synchronization core of globed2
(src/util/sync.hpp): SmartMessageQueue, WrappingMutex with its RAII
Guard, and RelaxedAtomic.

The queue's internal std::queue<T> is embedded as a Lean List T with the
front of the queue at the head of the list.  Every operation is performed
under the single mutex in the source, so the sequential functional
semantics below is the exact per-operation semantics; notification of the
condition variable is tracked as a count of notify_one calls.
-/

namespace SmartMessageQueue

/-- Embedding of `_iq.push(msg); if (notify) _cvar.notify_one();`
(sync.hpp lines 72-77).  Returns the new queue contents together with the
number of notify_one calls issued. -/
def push {T : Type} (q : List T) (msg : T) (notify : Bool) : List T × Nat :=
  (q ++ [msg], if notify then 1 else 0)

/-- Model of `std::copy(std::begin(iterable), std::end(iterable),
std::back_inserter(_iq))` (sync.hpp line 82).  As written this expression
is ill-formed for every instantiation: `std::back_insert_iterator` calls
`push_back` on its container, and `_iq` is a `std::queue<T>`, which has no
`push_back` member, so the source line cannot compile when used.  The
definition models the evident intended behavior (element-by-element
insertion at the tail, in iteration order, matching how `push` uses
`_iq.push`), which is what the surrounding claims reason about. -/
def copyBackInserter {T : Type} (q : List T) (ms : List T) : List T :=
  ms.foldl (fun acc m => acc ++ [m]) q

/-- Model of `pushAll(iterable, notify)` (sync.hpp lines 79-86): under one
lock, insert the whole iterable at the tail and issue a single notify_one
if `notify` is set.  The copy line of the source is ill-formed (see
`copyBackInserter`), so this models the intended behavior of the
function, not compilable code. -/
def pushAll {T : Type} (q : List T) (ms : List T) (notify : Bool) : List T × Nat :=
  (copyBackInserter q ms, if notify then 1 else 0)

/-- Embedding of `pop()` (sync.hpp lines 53-58): `_iq.front()` followed by
`_iq.pop()`.  On an empty queue `front()` is undefined behavior in C++
(std::queue has no check and no abort); the embedding returns `none` there
because the source defines no result at all. -/
def pop {T : Type} (q : List T) : Option (T × List T) :=
  match q with
  | [] => none
  | x :: rest => some (x, rest)

/-- Embedding of the drain loop of `popAll()` (sync.hpp lines 64-67):
`while (!_iq.empty()) { out.push_back(_iq.front()); _iq.pop(); }`.
The first component is the vector `out`, the second the final queue. -/
def popAllLoop {T : Type} : List T → List T → List T × List T
  | [], out => (out, [])
  | x :: rest, out => popAllLoop rest (out ++ [x])

/-- Embedding of `popAll()` (sync.hpp lines 60-70): starts from an empty
output vector and runs the drain loop. -/
def popAll {T : Type} (q : List T) : List T × List T :=
  popAllLoop q []

/-- Embedding of `empty()` (sync.hpp lines 43-46). -/
def emptyQ {T : Type} (q : List T) : Bool :=
  q.isEmpty

/-- Embedding of `size()` (sync.hpp lines 48-51). -/
def sizeQ {T : Type} (q : List T) : Nat :=
  q.length

/-- Semantics of the condition-variable wait loop
`_cvar.wait(lock, [this](){ return !_iq.empty(); })` (sync.hpp line 31).
The argument lists the queue contents observed at each successive wakeup
(notified or spurious); the predicate is re-checked under the lock at each
wakeup, and the wait returns (with the observed queue) only at the first
wakeup at which the queue is non-empty.  `none` means the wait is still
blocked after the given wakeups. -/
def cvarWait {T : Type} : List (List T) → Option (List T)
  | [] => none
  | s :: rest => if s.isEmpty then cvarWait rest else some s

/-- Embedding of the untimed `waitForMessages()` (sync.hpp lines 27-32):
if the queue is non-empty on entry it returns immediately (consuming no
wakeups); otherwise it enters the condition-variable wait loop. -/
def waitForMessages {T : Type} (q : List T) (wakeups : List (List T)) :
    Option (List T) :=
  if q.isEmpty then cvarWait wakeups else some q

/-- Semantics of `_cvar.wait_for(lock, timeout, pred)` (sync.hpp line 40):
wakeups before the timeout re-check the predicate and return true at the
first non-empty observation; if the timeout elapses first, the predicate
is checked one final time on the queue contents `atTimeout` and its value
is returned. -/
def cvarWaitFor {T : Type} : List (List T) → List T → Bool × List T
  | [], atTimeout => (!atTimeout.isEmpty, atTimeout)
  | s :: rest, atTimeout =>
      if s.isEmpty then cvarWaitFor rest atTimeout else (true, s)

/-- Embedding of the timed `waitForMessages(timeout)` (sync.hpp lines
35-41): returns true immediately if the queue is non-empty on entry,
otherwise defers to the timed condition-variable wait. -/
def waitForMessagesTimed {T : Type} (q : List T) (wakeups : List (List T))
    (atTimeout : List T) : Bool × List T :=
  if q.isEmpty then cvarWaitFor wakeups atTimeout else (true, q)

/-- A single client operation on the queue, for reasoning about whole
histories of calls. -/
inductive Op (T : Type) where
  | push (m : T) (notify : Bool)
  | pushAll (ms : List T) (notify : Bool)
  | pop
  | popAll
deriving DecidableEq

/-- One operation applied to a queue state: the new queue contents and the
messages the operation returned to the caller.  `pop` on an empty queue
has no defined result (undefined behavior in the source), so the step is
`none` there. -/
def step {T : Type} (q : List T) : Op T → Option (List T × List T)
  | .push m n => some ((push q m n).1, [])
  | .pushAll ms n => some ((pushAll q ms n).1, [])
  | .pop =>
      match pop q with
      | none => none
      | some (x, rest) => some (rest, [x])
  | .popAll =>
      some ((popAll q).2, (popAll q).1)

/-- A whole history of operations applied in order, accumulating every
message returned to callers.  The result is `none` if any step hit
undefined behavior. -/
def run {T : Type} (q : List T) : List (Op T) → Option (List T × List T)
  | [] => some (q, [])
  | op :: rest =>
      match step q op with
      | none => none
      | some (q2, ret) =>
          match run q2 rest with
          | none => none
          | some (qf, rets) => some (qf, ret ++ rets)

/-- All messages pushed by a history, in push order. -/
def pushedOf {T : Type} : List (Op T) → List T
  | [] => []
  | .push m _ :: rest => m :: pushedOf rest
  | .pushAll ms _ :: rest => ms ++ pushedOf rest
  | .pop :: rest => pushedOf rest
  | .popAll :: rest => pushedOf rest

end SmartMessageQueue

namespace SmartMessageQueue

theorem popAllLoop_spec {T : Type} (q out : List T) :
    popAllLoop q out = (out ++ q, []) := by
  induction q generalizing out with
  | nil => simp [popAllLoop]
  | cons x rest ih => simp [popAllLoop, ih]

theorem popAll_eq {T : Type} (q : List T) : popAll q = (q, []) := by
  simp [popAll, popAllLoop_spec]

theorem copyBackInserter_eq {T : Type} (q ms : List T) :
    copyBackInserter q ms = q ++ ms := by
  induction ms generalizing q with
  | nil => simp [copyBackInserter]
  | cons m rest ih =>
      simp only [copyBackInserter, List.foldl_cons] at ih ⊢
      rw [ih]
      simp

theorem run_conserves {T : Type} (q : List T) (ops : List (Op T))
    (qf rets : List T) (h : run q ops = some (qf, rets)) :
    rets ++ qf = q ++ pushedOf ops := by
  induction ops generalizing q rets with
  | nil =>
      simp only [run, Option.some.injEq, Prod.mk.injEq] at h
      simp [← h.1, ← h.2, pushedOf]
  | cons op rest ih =>
      cases op with
      | push m n =>
          simp only [run, step] at h
          cases h2 : run (push q m n).1 rest with
          | none => rw [h2] at h; simp at h
          | some pr =>
              rw [h2] at h
              obtain ⟨q2, r2⟩ := pr
              simp only [List.nil_append, Option.some.injEq, Prod.mk.injEq] at h
              obtain ⟨hq, hr⟩ := h
              subst hq; subst hr
              have hrec := ih _ _ h2
              rw [hrec]
              simp [push, pushedOf, List.append_assoc]
      | pushAll ms n =>
          simp only [run, step] at h
          cases h2 : run (pushAll q ms n).1 rest with
          | none => rw [h2] at h; simp at h
          | some pr =>
              rw [h2] at h
              obtain ⟨q2, r2⟩ := pr
              simp only [List.nil_append, Option.some.injEq, Prod.mk.injEq] at h
              obtain ⟨hq, hr⟩ := h
              subst hq; subst hr
              have hrec := ih _ _ h2
              rw [hrec]
              simp [pushAll, copyBackInserter_eq, pushedOf, List.append_assoc]
      | pop =>
          cases q with
          | nil => simp [run, step, pop] at h
          | cons x xs =>
              simp only [run, step, pop] at h
              cases h2 : run xs rest with
              | none => rw [h2] at h; simp at h
              | some pr =>
                  rw [h2] at h
                  obtain ⟨q2, r2⟩ := pr
                  simp only [List.cons_append, List.nil_append,
                    Option.some.injEq, Prod.mk.injEq] at h
                  obtain ⟨hq, hr⟩ := h
                  subst hq; subst hr
                  have hrec := ih _ _ h2
                  simp only [pushedOf, List.cons_append]
                  rw [hrec]
      | popAll =>
          simp only [run, step, popAll_eq] at h
          cases h2 : run ([] : List T) rest with
          | none => rw [h2] at h; simp at h
          | some pr =>
              rw [h2] at h
              obtain ⟨q2, r2⟩ := pr
              simp only [Option.some.injEq, Prod.mk.injEq] at h
              obtain ⟨hq, hr⟩ := h
              subst hq; subst hr
              have hrec := ih _ _ h2
              simp only [List.nil_append] at hrec
              simp only [pushedOf, List.append_assoc]
              rw [hrec]

end SmartMessageQueue

/-- C1: popAll drains every pending element in FIFO order and leaves the
queue empty; for any sequence of pushes m1..mn into an initially empty
queue, popAll returns exactly that sequence in push order. -/
theorem C1_popAll_fifo {T : Type} :
    (∀ q : List T, SmartMessageQueue.popAll q = (q, [])) ∧
    (∀ ms : List T,
      SmartMessageQueue.popAll
        (ms.foldl (fun q m => (SmartMessageQueue.push q m true).1) []) =
        (ms, [])) := by
  constructor
  · exact fun q => SmartMessageQueue.popAll_eq q
  · intro ms
    have hfold : ∀ (q : List T),
        ms.foldl (fun q m => (SmartMessageQueue.push q m true).1) q = q ++ ms := by
      induction ms with
      | nil => intro q; simp
      | cons m rest ih =>
          intro q
          simp only [List.foldl_cons]
          rw [ih]
          simp [SmartMessageQueue.push]
    rw [hfold]
    simp [SmartMessageQueue.popAll_eq]

/-- C2: over any defined history of push / pushAll / pop / popAll calls
starting from the empty queue (pop only applied to non-empty states, else
the run is undefined), the multiset of messages returned to callers plus
the multiset still pending equals exactly the multiset pushed: no loss,
no duplication. -/
theorem C2_conservation {T : Type} (ops : List (SmartMessageQueue.Op T))
    (qf rets : List T)
    (h : SmartMessageQueue.run [] ops = some (qf, rets)) :
    Multiset.ofList rets + Multiset.ofList qf =
      Multiset.ofList (SmartMessageQueue.pushedOf ops) := by
  have hl := SmartMessageQueue.run_conserves [] ops qf rets h
  simp only [List.nil_append] at hl
  calc Multiset.ofList rets + Multiset.ofList qf
      = Multiset.ofList (rets ++ qf) := by
        simp
    _ = Multiset.ofList (SmartMessageQueue.pushedOf ops) := by rw [hl]

/-- Witness for C2: a concrete history push 1, push 2, pop, pushAll [3,4],
popAll returns [1] then [2,3,4], pending empty, and the conservation
theorem applies to it. -/
theorem C2_conservation_witness :
    SmartMessageQueue.run []
        [SmartMessageQueue.Op.push 1 true, SmartMessageQueue.Op.push 2 true,
         SmartMessageQueue.Op.pop, SmartMessageQueue.Op.pushAll [3, 4] true,
         SmartMessageQueue.Op.popAll] = some (([] : List Nat), [1, 2, 3, 4]) ∧
    Multiset.ofList [1, 2, 3, 4] + Multiset.ofList ([] : List Nat) =
      Multiset.ofList (SmartMessageQueue.pushedOf
        [SmartMessageQueue.Op.push 1 true, SmartMessageQueue.Op.push 2 true,
         SmartMessageQueue.Op.pop, SmartMessageQueue.Op.pushAll [3, 4] true,
         SmartMessageQueue.Op.popAll]) :=
  ⟨by decide, C2_conservation _ _ _ (by decide)⟩

/-- C3 (intended behavior): the source pushAll cannot do what the claim
says, because `std::copy` into `std::back_inserter(_iq)` is ill-formed
for `std::queue` (no `push_back` member), so every use of pushAll fails
to compile.  The claim describes the evident intent, and this theorem
proves that the intended operation appends all of the iterable's items to
the tail preserving their relative order and issues at most one
notification (exactly one when notify is set, none otherwise) no matter
how many items were appended. -/
theorem C3_pushAll_append {T : Type} (q ms : List T) (notify : Bool) :
    (SmartMessageQueue.pushAll q ms notify).1 = q ++ ms ∧
    (SmartMessageQueue.pushAll q ms notify).2 ≤ 1 := by
  refine ⟨?_, ?_⟩
  · simp [SmartMessageQueue.pushAll, SmartMessageQueue.copyBackInserter_eq]
  · cases notify <;> simp [SmartMessageQueue.pushAll]

/-- C4: waitForMessages on a non-empty queue returns immediately
(consuming no wakeups); the untimed wait returns only with a non-empty
queue; the timed wait returns true immediately on a non-empty queue,
returns false exactly when every wakeup before the timeout and the final
check at timeout observe an empty queue, and a spurious wakeup with an
empty queue never ends the wait (the predicate is re-checked). -/
theorem C4_waitForMessages {T : Type} :
    (∀ (q : List T) (w : List (List T)), q ≠ [] →
      SmartMessageQueue.waitForMessages q w = some q) ∧
    (∀ (q q' : List T) (w : List (List T)),
      SmartMessageQueue.waitForMessages q w = some q' → q' ≠ []) ∧
    (∀ (q f : List T) (w : List (List T)), q ≠ [] →
      SmartMessageQueue.waitForMessagesTimed q w f = (true, q)) ∧
    (∀ (f : List T) (w : List (List T)),
      (SmartMessageQueue.waitForMessagesTimed [] w f).1 = false ↔
        (∀ s ∈ w, s = []) ∧ f = []) ∧
    (∀ (w : List (List T)),
      SmartMessageQueue.cvarWait (([] : List T) :: w) =
        SmartMessageQueue.cvarWait w) := by
  refine ⟨?_, ?_, ?_, ?_, ?_⟩
  · intro q w hq
    simp [SmartMessageQueue.waitForMessages, List.isEmpty_iff, hq]
  · intro q q' w h
    by_cases hq : q = []
    · subst hq
      simp only [SmartMessageQueue.waitForMessages, List.isEmpty_nil,
        if_true] at h
      induction w with
      | nil => simp [SmartMessageQueue.cvarWait] at h
      | cons s rest ih =>
          simp only [SmartMessageQueue.cvarWait] at h
          by_cases hs : s.isEmpty
          · rw [if_pos hs] at h
            exact ih h
          · rw [if_neg hs] at h
            simp only [Option.some.injEq] at h
            subst h
            exact fun he => hs (by simp [he])
    · rw [SmartMessageQueue.waitForMessages, if_neg (by simpa [List.isEmpty_iff] using hq)] at h
      simp only [Option.some.injEq] at h
      subst h
      exact hq
  · intro q f w hq
    simp [SmartMessageQueue.waitForMessagesTimed, List.isEmpty_iff, hq]
  · intro f w
    simp only [SmartMessageQueue.waitForMessagesTimed, List.isEmpty_nil,
      if_true]
    induction w with
    | nil =>
        simp [SmartMessageQueue.cvarWaitFor, List.isEmpty_iff]
    | cons s rest ih =>
        simp only [SmartMessageQueue.cvarWaitFor]
        by_cases hs : s.isEmpty
        · rw [if_pos hs]
          rw [ih]
          constructor
          · rintro ⟨hall, hf⟩
            exact ⟨fun t ht => by
              rcases List.mem_cons.mp ht with h1 | h2
              · subst h1; exact List.isEmpty_iff.mp hs
              · exact hall t h2, hf⟩
          · rintro ⟨hall, hf⟩
            exact ⟨fun t ht => hall t (List.mem_cons_of_mem _ ht), hf⟩
        · rw [if_neg hs]
          simp only [Bool.true_eq_false, false_iff]
          rintro ⟨hall, -⟩
          exact hs (by simp [hall s (List.mem_cons_self s rest)])
  · intro w
    simp [SmartMessageQueue.cvarWait]

/-- Witness for C4: with queue [1] the wait returns immediately, and the
timed wait on the empty queue with one spurious empty wakeup and an empty
queue at timeout returns false. -/
theorem C4_waitForMessages_witness :
    (([1] : List Nat) ≠ [] ∧
      SmartMessageQueue.waitForMessages ([1] : List Nat) [[], [2]] = some [1]) ∧
    (SmartMessageQueue.waitForMessagesTimed ([] : List Nat) [[]] []).1 = false :=
  ⟨⟨by decide, (C4_waitForMessages.1) [1] [[], [2]] (by decide)⟩,
    ((C4_waitForMessages.2.2.2.1) [] [[]]).mpr ⟨by decide, rfl⟩⟩

/-- C9: popAll has no non-empty precondition: on the empty queue it is
defined (unlike pop, whose embedding is undefined there), returns the
empty sequence, and leaves the queue empty. -/
theorem C9_popAll_empty_safe {T : Type} :
    SmartMessageQueue.popAll ([] : List T) = ([], []) ∧
    SmartMessageQueue.step ([] : List T) SmartMessageQueue.Op.popAll =
      some ([], []) := by
  refine ⟨SmartMessageQueue.popAll_eq [], ?_⟩
  simp [SmartMessageQueue.step, SmartMessageQueue.popAll_eq]

namespace WrappingMutex

/-- State of a WrappingMutex::Guard (sync.hpp lines 104-139): the single
data member that controls releasing, `bool alreadyUnlocked = false`.  A
freshly constructed guard (which locked the mutex in its constructor,
line 110-112) has it false. -/
structure GuardState where
  alreadyUnlocked : Bool
deriving DecidableEq

/-- A guard as constructed by `WrappingMutex::lock()` (sync.hpp lines
141-143): `alreadyUnlocked` initialized to false. -/
def Guard.fresh : GuardState :=
  { alreadyUnlocked := false }

/-- Embedding of `Guard::unlock()` (sync.hpp lines 128-133):
`if (!alreadyUnlocked) { mutex_.unlock(); alreadyUnlocked = true; }`.
Returns the updated guard state and the number of `mutex_.unlock()` calls
performed (1 or 0).  The function is total: the source has no abort,
assert or exception on any path. -/
def Guard.unlock (g : GuardState) : GuardState × Nat :=
  if !g.alreadyUnlocked then ({ alreadyUnlocked := true }, 1) else (g, 0)

/-- Embedding of `Guard::~Guard()` (sync.hpp lines 113-116):
`if (!alreadyUnlocked) mutex_.unlock();`.  Returns the number of
`mutex_.unlock()` calls the destructor performs. -/
def Guard.dtor (g : GuardState) : Nat :=
  if !g.alreadyUnlocked then 1 else 0

end WrappingMutex

/-- C6: the mutex is released exactly once over a guard's lifetime.
Calling unlock twice is the same as calling it once (same state, and the
second call performs zero releases); the destructor performs no release
after an explicit unlock; and in each of the three lifetimes of a fresh
guard (destructor only; unlock then destructor; unlock twice then
destructor) the total number of mutex releases is exactly one. -/
theorem C6_unlock_idempotent :
    (∀ g : WrappingMutex.GuardState,
      (WrappingMutex.Guard.unlock (WrappingMutex.Guard.unlock g).1).1 =
        (WrappingMutex.Guard.unlock g).1 ∧
      (WrappingMutex.Guard.unlock (WrappingMutex.Guard.unlock g).1).2 = 0) ∧
    (∀ g : WrappingMutex.GuardState,
      WrappingMutex.Guard.dtor (WrappingMutex.Guard.unlock g).1 = 0) ∧
    (WrappingMutex.Guard.dtor WrappingMutex.Guard.fresh = 1) ∧
    ((WrappingMutex.Guard.unlock WrappingMutex.Guard.fresh).2 +
      WrappingMutex.Guard.dtor
        (WrappingMutex.Guard.unlock WrappingMutex.Guard.fresh).1 = 1) ∧
    ((WrappingMutex.Guard.unlock WrappingMutex.Guard.fresh).2 +
      (WrappingMutex.Guard.unlock
        (WrappingMutex.Guard.unlock WrappingMutex.Guard.fresh).1).2 +
      WrappingMutex.Guard.dtor
        (WrappingMutex.Guard.unlock
          (WrappingMutex.Guard.unlock WrappingMutex.Guard.fresh).1).1 = 1) := by
  refine ⟨?_, ?_, by decide, by decide, by decide⟩
  · intro g
    cases g with
    | mk b => cases b <;> simp [WrappingMutex.Guard.unlock]
  · intro g
    cases g with
    | mk b =>
        cases b <;>
          simp [WrappingMutex.Guard.unlock, WrappingMutex.Guard.dtor]

/-- C5 counterexample: the claim says a second explicit unlock on the same
guard terminates with a deliberate failure (abort/panic) rather than
proceeding silently.  In the source, unlock on an already-unlocked guard
is a defined silent no-op: it returns normally, leaves the guard state
unchanged, and performs zero mutex releases. -/
theorem C5_counterexample :
    WrappingMutex.Guard.unlock
        (WrappingMutex.Guard.unlock WrappingMutex.Guard.fresh).1 =
      ((WrappingMutex.Guard.unlock WrappingMutex.Guard.fresh).1, 0) := by
  decide

/-- C5 amended: neither contract violation fails loudly.  pop() on an
empty queue is an unchecked precondition whose behavior is undefined (the
embedding has no defined result there, and in particular no deliberate
abort), and a second explicit unlock() on the same guard is a defined
silent no-op that performs no mutex release and leaves the guard
unchanged. -/
theorem C5_no_loud_failure :
    SmartMessageQueue.pop ([] : List Nat) = none ∧
    (∀ g : WrappingMutex.GuardState,
      (WrappingMutex.Guard.unlock (WrappingMutex.Guard.unlock g).1).2 = 0 ∧
      (WrappingMutex.Guard.unlock (WrappingMutex.Guard.unlock g).1).1 =
        (WrappingMutex.Guard.unlock g).1) := by
  refine ⟨rfl, ?_⟩
  intro g
  cases g with
  | mk b => cases b <;> simp [WrappingMutex.Guard.unlock]

namespace RelaxedAtomic

/-- Embedding of RelaxedAtomic (sync.hpp lines 151-179): the wrapped
`std::atomic<T> value` holds a single value of T. -/
structure Atom (T : Type) where
  value : T
deriving DecidableEq

/-- Embedding of `load()` (sync.hpp lines 156-158); the memory-order
argument does not affect the value read. -/
def load {T : Type} (a : Atom T) : T :=
  a.value

/-- Embedding of `store(val)` (sync.hpp lines 160-162). -/
def store {T : Type} (a : Atom T) (v : T) : Atom T :=
  { a with value := v }

/-- Embedding of the copy constructor `RelaxedAtomic(RelaxedAtomic<T>&
other) { this->store(other.load()); }` (sync.hpp lines 174-176): the new
object starts from its default-constructed member (`uninit` stands for
whatever the member holds before the body runs) and the body stores the
value loaded from the source — two separate atomic operations, not one. -/
def copyCtor {T : Type} (other : Atom T) (uninit : T) : Atom T :=
  store { value := uninit } (load other)

end RelaxedAtomic

/-- C7: copy-construction of a RelaxedAtomic is a load of the source
followed by a store into the new object, so the copy's load equals the
value the source held at the moment of the copy's load; and because the
two steps are separate, a store to the source interleaved after the copy's
load leaves the copy holding the originally loaded value, not the new one
(the combined copy is not one atomic operation). -/
theorem C7_relaxed_atomic_copy {T : Type} (a : RelaxedAtomic.Atom T) (u w : T) :
    RelaxedAtomic.load (RelaxedAtomic.copyCtor a u) = RelaxedAtomic.load a ∧
    RelaxedAtomic.copyCtor a u =
      RelaxedAtomic.store { value := u } (RelaxedAtomic.load a) ∧
    RelaxedAtomic.load
        (RelaxedAtomic.store { value := u } (RelaxedAtomic.load a)) =
      RelaxedAtomic.load a ∧
    RelaxedAtomic.load (RelaxedAtomic.store a w) = w := by
  exact ⟨rfl, rfl, rfl, rfl⟩

namespace Cpp

/-- The special-member-function declarations of a C++ class, as written in
its definition.  Only the members relevant to copy/move availability are
recorded. -/
structure ClassDecl where
  userDeclaredCopyCtor : Bool
  copyCtorDeleted : Bool
  userDeclaredCopyAssign : Bool
  copyAssignDeleted : Bool
  userDeclaredMoveCtor : Bool
  userDeclaredMoveAssign : Bool
  userDeclaredDtor : Bool
deriving DecidableEq

/-- C++17 rule: a move constructor is implicitly declared if and only if
the class has no user-declared copy constructor, no user-declared copy
assignment operator, no user-declared move assignment operator and no
user-declared destructor (and no user-declared move constructor of its
own). -/
def hasImplicitMoveCtor (c : ClassDecl) : Bool :=
  !c.userDeclaredMoveCtor && !c.userDeclaredCopyCtor &&
    !c.userDeclaredCopyAssign && !c.userDeclaredMoveAssign &&
    !c.userDeclaredDtor

/-- A copy construction compiles: the copy constructor (user-declared or
implicit) is not deleted. -/
def copyConstructible (c : ClassDecl) : Bool :=
  if c.userDeclaredCopyCtor then !c.copyCtorDeleted else true

/-- A copy assignment compiles: the copy assignment operator
(user-declared or implicit) is not deleted. -/
def copyAssignable (c : ClassDecl) : Bool :=
  if c.userDeclaredCopyAssign then !c.copyAssignDeleted else true

/-- Construction from an rvalue compiles: overload resolution selects a
move constructor when one exists (user-declared or implicitly declared),
and otherwise falls back to the copy constructor, whose const-reference
parameter binds to the rvalue, so the copy constructor must not be
deleted. -/
def moveConstructible (c : ClassDecl) : Bool :=
  c.userDeclaredMoveCtor || hasImplicitMoveCtor c || copyConstructible c

/-- The special members of WrappingMutex::Guard as declared in sync.hpp:
`Guard(const Guard&) = delete;` (line 107), `Guard& operator=(const
Guard&) = delete;` (line 108), the user-declared destructor `~Guard()`
(line 113), and no move constructor or move assignment declared. -/
def guardDecl : ClassDecl :=
  { userDeclaredCopyCtor := true
    copyCtorDeleted := true
    userDeclaredCopyAssign := true
    copyAssignDeleted := true
    userDeclaredMoveCtor := false
    userDeclaredMoveAssign := false
    userDeclaredDtor := true }

end Cpp

/-- C8 counterexample: the claim states that Guard is non-copyable while
move construction is available.  Guard's deleted copy operations together
with its user-declared destructor suppress the implicit move constructor,
and construction from an rvalue then falls back to the deleted copy
constructor, so move construction is NOT available: the claimed
combination is false. -/
theorem C8_counterexample :
    ¬(Cpp.copyConstructible Cpp.guardDecl = false ∧
      Cpp.copyAssignable Cpp.guardDecl = false ∧
      Cpp.moveConstructible Cpp.guardDecl = true) := by
  decide

/-- C8 amended: Guard is non-copyable (copy construction and copy
assignment deleted) and also non-movable: no move constructor is
implicitly declared (deleted copy operations and a user-declared
destructor suppress it) and rvalue construction falls back to the deleted
copy constructor.  lock() can still return a Guard by value only through
guaranteed copy elision. -/
theorem C8_guard_not_copyable_not_movable :
    Cpp.copyConstructible Cpp.guardDecl = false ∧
    Cpp.copyAssignable Cpp.guardDecl = false ∧
    Cpp.hasImplicitMoveCtor Cpp.guardDecl = false ∧
    Cpp.moveConstructible Cpp.guardDecl = false := by
  decide

namespace WrappingMutex

/-- The value protected by a WrappingMutex (sync.hpp lines 145-148): the
object held behind `std::shared_ptr<T> data_`. -/
structure MutexBox (T : Type) where
  data : T
deriving DecidableEq

/-- Embedding of the default constructor `WrappingMutex():
data_(std::make_shared<T>()), mutex_() {}` (sync.hpp line 101): the
protected value is a value-initialized (default-constructed) T. -/
def mkDefault (T : Type) [Inhabited T] : MutexBox T :=
  { data := (default : T) }

/-- Embedding of `lock()` (sync.hpp lines 141-143) followed by the
guard's dereference `operator*` (lines 117-119): the guard returned by
lock() exposes the protected value `*data_`. -/
def lockDeref {T : Type} (w : MutexBox T) : T :=
  w.data

end WrappingMutex

/-- C10 (default-constructor half, the half that compiles): the default
constructor of WrappingMutex makes the protected value a
default-constructed T, and the first lock()'s guard observes that value
through dereference.  The value-taking constructor (sync.hpp line 102)
calls `std::make_shared(obj)` without the template argument, which is
ill-formed C++ (the template parameter of std::make_shared is not
deducible), so it has no behavior to embed. -/
theorem C10_default_ctor_value {T : Type} [Inhabited T] :
    WrappingMutex.lockDeref (WrappingMutex.mkDefault T) = (default : T) :=
  rfl
